import Mathlib

/-!
Verification of the webhook-to-chat notifier core (webhook_firehose.py).

The Python module is shallow-embedded below.  External collaborators
(the user directory, the tracker client, the chat client, configuration)
are modelled as components of an explicit environment `Env`, following the
contracts in the specification; everything in `WebhookFirehose` itself is
translated from the source.  Python exceptions are modelled with
`Except String`; the outbound effects of one request (chat messages,
debug notes, error reports) are collected in a list of `Output` values.
-/

namespace SlackNotiphier

/-! ## Text scanning and replacement (model of `re` and `str.replace`)

`_re_phab_mention = re.compile("@([\\w_-]+)")` and `str.replace` are
modelled over `List Char`.  The recursions carry an explicit fuel argument
(always instantiated with the length of the scanned list) so that the
definitions are structurally recursive and evaluate by kernel reduction. -/

/-- Model of the regex character class `[\w_-]` (ASCII fragment of `\w`
plus underscore and hyphen). -/
def isWordChar (c : Char) : Bool := c.isAlphanum || c == '_' || c == '-'

/-- One pass of Python `str.replace`: replaces every leftmost,
non-overlapping occurrence of `pat` by `rep`.  An empty `pat` leaves the
text unchanged; the callers below only ever pass patterns of the shape
`'@' :: run` with `run` nonempty, so that case never arises. -/
def replaceAux (pat rep : List Char) : Nat → List Char → List Char
  | _, [] => []
  | 0, s => s
  | fuel + 1, c :: rest =>
    if (!pat.isEmpty) && pat.isPrefixOf (c :: rest) then
      rep ++ replaceAux pat rep fuel ((c :: rest).drop pat.length)
    else
      c :: replaceAux pat rep fuel rest

/-- `strReplace s pat rep` models Python `s.replace(pat, rep)`. -/
def strReplace (s pat rep : List Char) : List Char := replaceAux pat rep s.length s

/-- `containsSub s pat = true` iff `pat` occurs as a contiguous substring
of `s` (an occurrence starts at some suffix of `s`). -/
def containsSub (s pat : List Char) : Bool :=
  match s with
  | [] => pat.isPrefixOf ([] : List Char)
  | c :: rest => pat.isPrefixOf (c :: rest) || containsSub rest pat

/-- Model of `re.finditer` for the pattern `@([\w_-]+)`: returns the list
of full matches (`group(0)`, i.e. including the leading `@`), scanning
left to right, non-overlapping, each run of word characters taken
greedily. -/
def findMentionsAux : Nat → List Char → List (List Char)
  | _, [] => []
  | 0, _ => []
  | fuel + 1, c :: rest =>
    if c == '@' then
      if (rest.takeWhile isWordChar).isEmpty then
        findMentionsAux fuel rest
      else
        ('@' :: rest.takeWhile isWordChar) ::
          findMentionsAux fuel (rest.drop (rest.takeWhile isWordChar).length)
    else
      findMentionsAux fuel rest

/-- All matches of the mention regex in `s`. -/
def findMentions (s : List Char) : List (List Char) := findMentionsAux s.length s

/-- Insertion into the `replacements` dict keyed by the full match.  A
repeated key keeps its first position; the stored value is the same for
equal keys (the mention lookup is a function of the key), so keeping the
first binding models the Python dict exactly. -/
def addRep (acc : List (List Char × List Char)) (key val : List Char) :
    List (List Char × List Char) :=
  if acc.any (fun p => p.1 = key) then acc else acc ++ [(key, val)]

/-- One step of the first loop of `_replace_mentions`: look the captured
name (`group(1)`, the token without its leading `@`) up in the user
directory and record `group(0) -> mention` when it resolves. -/
def repStep (mention : String → Option String)
    (acc : List (List Char × List Char)) (tok : List Char) :
    List (List Char × List Char) :=
  match mention (String.mk (tok.drop 1)) with
  | none => acc
  | some m => addRep acc tok m.data

/-- Model of the first loop of `_replace_mentions`: the `replacements`
dict built from all matches. -/
def buildReps (mention : String → Option String) (toks : List (List Char)) :
    List (List Char × List Char) :=
  toks.foldl (repStep mention) []

/-- Model of `WebhookFirehose._replace_mentions`: find all `@name` tokens,
resolve them through the user directory, then apply the textual
replacements one after the other. -/
def replaceMentions (mention : String → Option String) (text : String) : String :=
  let reps := buildReps mention (findMentions text.data)
  String.mk (reps.foldl (fun t pr => strReplace t pr.1 pr.2) text.data)

/-- `suffixSafe pat rep = true` when no nonempty suffix of `rep` is
prefix-comparable with `pat`; this rules out occurrences of `pat` that
start inside an inserted replacement. -/
def suffixSafe (pat rep : List Char) : Bool :=
  (List.range rep.length).all fun i =>
    (!(rep.drop i).isPrefixOf pat) && (!pat.isPrefixOf (rep.drop i))

/-- `headNotWord rep = true` when `rep` does not start with a word
character (chat mentions such as `<@U2>` start with `<`). -/
def headNotWord (rep : List Char) : Bool :=
  match rep with
  | [] => true
  | c :: _ => !isWordChar c

/-! ## Data model -/

/-- A resolved user record; `_users[phid]['phab_username']` reads this
field.  The chat mention is obtained separately through `get_mention`. -/
structure User where
  phab_username : String
deriving DecidableEq

/-- An enriched transaction as consumed by the handlers.  Fields the
Python dict may carry; a handler only reads the fields of its object
type. -/
structure Transaction where
  ttype : String
  author : String
  task : String := ""
  diff : String := ""
  commit : String := ""
  proj : String := ""
  repo : String := ""
  old : String := ""
  new : String := ""
  comment : String := ""
  asignee : Option String := none
deriving DecidableEq

/-- The inbound webhook payload: object type, object phid, and the list
of transaction phids (the `phid` field of each raw entry). -/
structure Request where
  objectType : String
  objectPhid : String
  transactions : List String
deriving DecidableEq

/-- The environment of external collaborators (spec section 6): the user
directory, the mention lookup, the tracker client (owner, permalink,
enrichment) and the channel configuration. -/
structure Env where
  users : String → Option User
  getMention : String → Option String
  getOwner : String → Option String
  getLink : String → String
  getTransactions : String → String → List String → List Transaction
  channels : List (String × String)

/-- Result of one transaction handler: either a rendered message
(text and optional channel override) or a skip, which carries the text of
the diagnostic note the handler logged. -/
inductive HandleResult where
  | msg (text : String) (channel : Option String)
  | skip (note : String)
deriving DecidableEq

/-- One outbound effect of `handle`: a per-transaction chat message, a
debug-severity note (only emitted when a debug sink is configured), or
the single error-severity report of the top-level handler. -/
inductive Output where
  | chat (text : String) (channel : Option String)
  | debugNote (text : String)
  | errorReport (text : String)
deriving DecidableEq

/-- Python `"{}".format(x)` renders `None` as the string `None`. -/
def pyStr : Option String → String
  | some s => s
  | none => "None"

/-- Whether a debug sink is configured: the chat client registers the
debug callback exactly when the channel map has a `__debug__` entry. -/
def debugConfigured (env : Env) : Bool := (env.channels.lookup "__debug__").isSome

/-- Stand-in for `json.dumps(transaction, indent=4)` in the diagnostic
notes (the exact JSON rendering is abstracted to a plain field dump). -/
def dumpTransaction (t : Transaction) : String :=
  "type=" ++ t.ttype ++ " author=" ++ t.author

/-- Text of the `slack_debug` note emitted for an unhandled event. -/
def skipNote (t : Transaction) : String :=
  "No message will be generated for: " ++ dumpTransaction t

/-- Stand-in for `json.dumps(request)` in the error report. -/
def dumpRequest (req : Request) : String :=
  "object.type=" ++ req.objectType ++ " object.phid=" ++ req.objectPhid ++
    " transactions=" ++ String.intercalate "," req.transactions

/-- The error-severity message composed by the `except` block of
`handle`; the runtime stack-trace text is abstracted to a placeholder. -/
def errorText (e : String) (req : Request) : String :=
  "\n*Exception in Slack-Notiphier:* " ++ e ++
    "\n*Original message:* " ++ dumpRequest req ++
    "\n*Stacktrace:*\n        <stack trace>\n"

/-- Model of `_get_channel_for_repo`: `channels.get(repo_name,
channels['__default__'])`.  Python evaluates the default argument
eagerly, so a missing `__default__` key raises even for mapped
repositories. -/
def getChannelForRepo (env : Env) (repo_name : String) : Except String String :=
  match env.channels.lookup "__default__" with
  | none => .error "KeyError: __default__"
  | some d => .ok ((env.channels.lookup repo_name).getD d)

/-! ## Transaction handlers (model of `_handle_task` .. `_handle_repo`) -/

/-- Lines 111-119 of `_handle_task`: resolve the owner of the task.
A falsy owner phid (absent, or the empty string) yields no owner; a
present owner phid that the user directory does not know raises. -/
def taskOwnerInfo (env : Env) (t : Transaction) :
    Except String (Option String × Option String) :=
  match env.getOwner t.task with
  | none => .ok (none, none)
  | some owner_phid =>
    if owner_phid = "" then .ok (none, none)
    else
      match env.users owner_phid with
      | none => .error ("Unknown Phabricator user: " ++ owner_phid)
      | some u => .ok (some u.phab_username, env.getMention owner_phid)

/-- The subtype dispatch of `_handle_task` (lines 126-180), after owner
and author resolution succeeded. -/
def taskMessage (env : Env) (t : Transaction) (task_link : String)
    (owner_name owner_mention : Option String) (author_name : String) : HandleResult :=
  if t.ttype = "task-create" then
    .msg ("User " ++ author_name ++ " created task " ++ task_link) none
  else if t.ttype = "task-add-comment" then
    let comment := replaceMentions env.getMention t.comment
    let message := "User " ++ author_name ++ " commented on task " ++ task_link ++
      " with: " ++ comment
    let message :=
      match owner_name with
      | some ow =>
        if ow ≠ "" ∧ author_name ≠ ow then pyStr owner_mention ++ " " ++ message
        else message
      | none => message
    .msg message none
  else if t.ttype = "task-claim" then
    .msg ("User " ++ author_name ++ " claimed task " ++ task_link) none
  else if t.ttype = "task-assign" then
    let asignee_mention :=
      match t.asignee with
      | some a => if a ≠ "" then pyStr (env.getMention a) else "nobody"
      | none => "nobody"
    .msg ("User " ++ author_name ++ " assigned " ++ asignee_mention ++
      " to task " ++ task_link) none
  else if t.ttype = "task-change-status" then
    let message := "User " ++ author_name ++ " changed the status of task " ++
      task_link ++ " from " ++ t.old ++ " to " ++ t.new
    let message :=
      if owner_name ≠ some author_name then pyStr owner_mention ++ " " ++ message
      else message
    .msg message none
  else if t.ttype = "task-change-priority" then
    let message := "User " ++ author_name ++ " changed the priority of task " ++
      task_link ++ " from " ++ t.old ++ " to " ++ t.new
    let message :=
      if owner_name ≠ some author_name then pyStr owner_mention ++ " " ++ message
      else message
    .msg message none
  else .skip (skipNote t)

/-- The body of the change-status / change-priority templates, shared by
the two subtypes up to the changed word. -/
def taskChangeText (env : Env) (t : Transaction) (author_name : String) : String :=
  "User " ++ author_name ++
    (if t.ttype = "task-change-status" then " changed the status of task "
     else " changed the priority of task ") ++
    env.getLink t.task ++ " from " ++ t.old ++ " to " ++ t.new

/-- Model of `_handle_task`. -/
def handleTask (env : Env) (t : Transaction) : Except String HandleResult :=
  let task_link := env.getLink t.task
  match taskOwnerInfo env t with
  | .error e => .error e
  | .ok (owner_name, owner_mention) =>
    match env.users t.author with
    | none => .error ("Unknown Phabricator user: " ++ t.author)
    | some ua => .ok (taskMessage env t task_link owner_name owner_mention ua.phab_username)

/-- The subtype dispatch of `_handle_diff` (lines 203-261), after owner,
author and channel resolution succeeded. -/
def diffMessage (env : Env) (t : Transaction)
    (diff_link owner_name owner_mention author_name channel : String) : HandleResult :=
  if t.ttype = "diff-create" then
    .msg ("User " ++ author_name ++ " created diff " ++ diff_link) (some channel)
  else if t.ttype = "diff-add-comment" then
    let comment := replaceMentions env.getMention t.comment
    let message := "User " ++ author_name ++ " commented on diff " ++ diff_link ++
      " with " ++ comment
    let message :=
      if author_name ≠ owner_name then owner_mention ++ " " ++ message else message
    .msg message (some channel)
  else if t.ttype = "diff-update" then
    .msg ("User " ++ author_name ++ " updated diff " ++ diff_link) (some channel)
  else if t.ttype = "diff-abandon" then
    .msg ("User " ++ author_name ++ " abandoned diff " ++ diff_link) (some channel)
  else if t.ttype = "diff-reclaim" then
    .msg ("User " ++ author_name ++ " reclaimed diff " ++ diff_link) (some channel)
  else if t.ttype = "diff-accept" then
    .msg (owner_mention ++ " User " ++ author_name ++ " accepted diff " ++ diff_link)
      (some channel)
  else if t.ttype = "diff-request-changes" then
    .msg (owner_mention ++ " User " ++ author_name ++ " requested changes to diff " ++
      diff_link) (some channel)
  else if t.ttype = "diff-commandeer" then
    .msg (owner_mention ++ " User " ++ author_name ++ " took command of diff " ++
      diff_link) (some channel)
  else .skip (skipNote t)

/-- Model of `_handle_diff`.  Unlike the task handler there is no branch
for an absent owner: `get_owner` may return no phid, in which case the
directory lookup finds no user (an absent identity resolves to nothing,
spec section 6) and the `ValueError` is raised with Python rendering the
`None` key in its message. -/
def handleDiff (env : Env) (t : Transaction) : Except String HandleResult :=
  let diff_link := env.getLink t.diff
  match env.getOwner t.diff with
  | none => .error "Unknown Phabricator user: None"
  | some owner_phid =>
    match env.users owner_phid with
    | none => .error ("Unknown Phabricator user: " ++ owner_phid)
    | some uo =>
      match env.users t.author with
      | none => .error ("Unknown Phabricator user: " ++ t.author)
      | some ua =>
        match getChannelForRepo env t.repo with
        | .error e => .error e
        | .ok channel =>
          .ok (diffMessage env t diff_link uo.phab_username
            (pyStr (env.getMention owner_phid)) ua.phab_username channel)

/-- Model of `_handle_commit`. -/
def handleCommit (env : Env) (t : Transaction) : Except String HandleResult :=
  let commit_link := env.getLink t.commit
  match env.users t.author with
  | none => .error ("Unknown Phabricator user: " ++ t.author)
  | some ua =>
    match getChannelForRepo env t.repo with
    | .error e => .error e
    | .ok channel =>
      if t.ttype = "commit-add-comment" then
        .ok (.msg ("User " ++ ua.phab_username ++ " created commit " ++ commit_link ++
          " on repository " ++ t.repo) (some channel))
      else .ok (.skip (skipNote t))

/-- Model of `_handle_proj`. -/
def handleProj (env : Env) (t : Transaction) : Except String HandleResult :=
  let proj_link := env.getLink t.proj
  match env.users t.author with
  | none => .error ("Unknown Phabricator user: " ++ t.author)
  | some ua =>
    if t.ttype = "proj-create" then
      .ok (.msg ("User " ++ ua.phab_username ++ " created project " ++ proj_link) none)
    else .ok (.skip (skipNote t))

/-- Model of `_handle_repo`. -/
def handleRepo (env : Env) (t : Transaction) : Except String HandleResult :=
  let repo_link := env.getLink t.repo
  match env.users t.author with
  | none => .error ("Unknown Phabricator user: " ++ t.author)
  | some ua =>
    if t.ttype = "repo-create" then
      .ok (.msg ("User " ++ ua.phab_username ++ " created repository " ++ repo_link) none)
    else .ok (.skip (skipNote t))

/-- Model of `_handle_transaction`: dispatch on the object type; an
object type without a registered handler yields a diagnostic note and no
message. -/
def handleTransaction (env : Env) (ot : String) (t : Transaction) :
    Except String HandleResult :=
  if ot = "TASK" then handleTask env t
  else if ot = "DREV" then handleDiff env t
  else if ot = "CMIT" then handleCommit env t
  else if ot = "PROJ" then handleProj env t
  else if ot = "REPO" then handleRepo env t
  else .ok (.skip (skipNote t))

/-- Model of `_handle_transactions`.  Messages are sent as the loop
advances, so the outputs produced before a failure have already gone out;
the pair returned is (outputs emitted, exception if one was raised). -/
def handleTransactions (env : Env) (ot : String) :
    List Transaction → List Output × Option String
  | [] => ([], none)
  | t :: rest =>
    match handleTransaction env ot t with
    | .error e => ([], some e)
    | .ok (.skip note) =>
      let r := handleTransactions env ot rest
      ((if debugConfigured env then [Output.debugNote note] else []) ++ r.1, r.2)
    | .ok (.msg text channel) =>
      let r := handleTransactions env ot rest
      (Output.chat text channel :: r.1, r.2)

/-- The guarded body of `handle`: enrichment followed by the dispatch
loop. -/
def runPipeline (env : Env) (req : Request) : List Output × Option String :=
  handleTransactions env req.objectType
    (env.getTransactions req.objectType req.objectPhid req.transactions)

/-- Model of `WebhookFirehose.handle`: the whole flow is wrapped in a
`try`; an exception is converted into a single error-severity message
appended after whatever was already sent, and nothing propagates to the
caller (the return type is a plain list of outputs, not `Except`). -/
def handle (env : Env) (req : Request) : List Output :=
  match runPipeline env req with
  | (outs, none) => outs
  | (outs, some e) => outs ++ [Output.errorReport (errorText e req)]

/-- Recognizer for error-severity outputs. -/
def isErrorReport : Output → Bool
  | .errorReport _ => true
  | _ => false

/-- Recognizer for per-transaction chat messages. -/
def isChat : Output → Bool
  | .chat _ _ => true
  | _ => false

/-! ## Concrete instances used by counterexamples and witnesses -/

/-- A user directory in which only the name `bob` resolves. -/
def mC2 : String → Option String :=
  fun s => if s = "bob" then some "<@U2>" else none

/-- A user directory in which `bob` resolves to a chat mention whose
embedded identifier `U2` is itself a registered username. -/
def m9 : String → Option String :=
  fun s => if s = "bob" then some "<@U2>" else if s = "U2" then some "<@U7>" else none

/-- A task-create transaction by a resolvable author. -/
def tGood : Transaction := { ttype := "task-create", author := "P1", task := "T1" }

/-- A task-create transaction by an unknown author. -/
def tBad : Transaction := { ttype := "task-create", author := "P0", task := "T2" }

/-- An environment whose enrichment yields a resolvable transaction
followed by one with an unknown author. -/
def envBatch : Env :=
  { users := fun p => if p = "P1" then some { phab_username := "alice" } else none
    getMention := fun p => if p = "P1" then some "<@U1>" else none
    getOwner := fun _ => none
    getLink := fun r => "L-" ++ r
    getTransactions := fun _ _ _ => [tGood, tBad]
    channels := [("__default__", "general")] }

/-- The request routed to `envBatch`. -/
def reqBatch : Request :=
  { objectType := "TASK", objectPhid := "PHID-X", transactions := ["a", "b"] }

/-- A diff-accept transaction whose author is also the diff owner. -/
def tAccept : Transaction :=
  { ttype := "diff-accept", author := "P1", diff := "D1", repo := "r" }

/-- An environment in which `P1` (alice) owns diff `D1`. -/
def envDiff : Env :=
  { users := fun p => if p = "P1" then some { phab_username := "alice" } else none
    getMention := fun p => if p = "P1" then some "<@U1>" else none
    getOwner := fun _ => some "P1"
    getLink := fun r => "L-" ++ r
    getTransactions := fun _ _ _ => [tAccept]
    channels := [("__default__", "general")] }

/-- A task comment mentioning `@bob`, authored by alice on a task owned
by bob. -/
def tComment : Transaction :=
  { ttype := "task-add-comment", author := "P1", task := "T1",
    comment := "hey @bob check this" }

/-- An environment with two users: alice (`P1`) and bob (`P2`, the task
owner). -/
def envTwo : Env :=
  { users := fun p =>
      if p = "P1" then some { phab_username := "alice" }
      else if p = "P2" then some { phab_username := "bob" } else none
    getMention := fun p =>
      if p = "P2" then some "<@U2>" else if p = "bob" then some "<@U2>" else none
    getOwner := fun _ => some "P2"
    getLink := fun r => "L-" ++ r
    getTransactions := fun _ _ _ => [tComment]
    channels := [("__default__", "general")] }

/-- A status-change transaction on a task with no owner. -/
def tStatus : Transaction :=
  { ttype := "task-change-status", author := "P1", task := "T1",
    old := "Open", new := "Resolved" }

/-- An environment with one user and no task owners. -/
def envNoOwner : Env :=
  { users := fun p => if p = "P1" then some { phab_username := "alice" } else none
    getMention := fun _ => none
    getOwner := fun _ => none
    getLink := fun r => "L-" ++ r
    getTransactions := fun _ _ _ => [tStatus]
    channels := [("__default__", "general")] }

/-- An environment whose channel map routes `repo1` explicitly and has a
default and a debug sink. -/
def envChan : Env :=
  { users := fun _ => none
    getMention := fun _ => none
    getOwner := fun _ => none
    getLink := fun r => r
    getTransactions := fun _ _ _ => [tGood, tBad]
    channels := [("repo1", "chan1"), ("__default__", "dflt"), ("__debug__", "dbg")] }

/-- A request with an unrecognized object type. -/
def reqWiki : Request :=
  { objectType := "WIKI", objectPhid := "PHID-W", transactions := ["a", "b"] }

/-- A diff-create transaction on a diff without an owner. -/
def tOrphanDiff : Transaction :=
  { ttype := "diff-create", author := "P1", diff := "D9", repo := "r" }

/-- An environment in which no diff has an owner. -/
def envOrphan : Env :=
  { users := fun p => if p = "P1" then some { phab_username := "alice" } else none
    getMention := fun _ => none
    getOwner := fun _ => none
    getLink := fun r => "L-" ++ r
    getTransactions := fun _ _ _ => [tOrphanDiff]
    channels := [("__default__", "general")] }

/-- The request routed to `envOrphan`. -/
def reqOrphan : Request :=
  { objectType := "DREV", objectPhid := "PHID-D", transactions := ["a"] }

/-! ## Helper lemmas: prefixes, substring containment, replacement -/

theorem isPrefixOf_true_iff (l₁ l₂ : List Char) :
    l₁.isPrefixOf l₂ = true ↔ l₁ <+: l₂ :=
  List.isPrefixOf_iff_prefix

/-- If no nonempty suffix of `u` is prefix-comparable with `pat` and `t`
is free of `pat`, then `u ++ t` is free of `pat`: no occurrence can start
inside `u`. -/
theorem containsSub_append_safe (pat t : List Char)
    (ht : containsSub t pat = false) :
    ∀ u : List Char,
      (∀ v, (∃ w, w ++ v = u) → v ≠ [] →
        v.isPrefixOf pat = false ∧ pat.isPrefixOf v = false) →
      containsSub (u ++ t) pat = false := by
  intro u
  induction u with
  | nil => intro _; simpa using ht
  | cons c u' ih =>
    intro hsafe
    have hself := hsafe (c :: u') ⟨[], rfl⟩ (by simp)
    have htail : containsSub (u' ++ t) pat = false := by
      apply ih
      intro v hv hne
      obtain ⟨w, hw⟩ := hv
      exact hsafe v ⟨c :: w, by simp [hw]⟩ hne
    have step : containsSub ((c :: u') ++ t) pat =
        (pat.isPrefixOf (c :: (u' ++ t)) || containsSub (u' ++ t) pat) := by
      simp [containsSub]
    rw [step, htail, Bool.or_false]
    cases hb : pat.isPrefixOf (c :: (u' ++ t)) with
    | false => rfl
    | true =>
      exfalso
      have hp : pat <+: (c :: u') ++ t := by
        rw [isPrefixOf_true_iff] at hb
        simpa using hb
      rcases Nat.le_total pat.length (c :: u').length with hle | hle
      · have hpp : pat <+: (c :: u') :=
          List.prefix_of_prefix_length_le hp (List.prefix_append _ _) hle
        have := (isPrefixOf_true_iff pat (c :: u')).2 hpp
        rw [hself.2] at this
        exact Bool.noConfusion this
      · have hpp : (c :: u') <+: pat :=
          List.prefix_of_prefix_length_le (List.prefix_append _ _) hp hle
        have := (isPrefixOf_true_iff (c :: u') pat).2 hpp
        rw [hself.1] at this
        exact Bool.noConfusion this

/-- Unpacking of `suffixSafe` into the form `containsSub_append_safe`
expects. -/
theorem suffixSafe_spec {pat rep : List Char} (h : suffixSafe pat rep = true) :
    ∀ v, (∃ w, w ++ v = rep) → v ≠ [] →
      v.isPrefixOf pat = false ∧ pat.isPrefixOf v = false := by
  intro v hv hne
  obtain ⟨w, hw⟩ := hv
  have hvpos : 0 < v.length := by
    cases v with
    | nil => exact absurd rfl hne
    | cons a as => simp
  have hlen : w.length < rep.length := by
    rw [← hw, List.length_append]
    omega
  have hdrop : rep.drop w.length = v := by
    rw [← hw, List.drop_left]
  unfold suffixSafe at h
  rw [List.all_eq_true] at h
  have hi := h w.length (List.mem_range.2 hlen)
  rw [hdrop] at hi
  simp only [Bool.and_eq_true, Bool.not_eq_true'] at hi
  exact hi

/-- A prefix made of word characters survives `replaceAux` backwards:
since an inserted replacement starts with a non-word character, such a
prefix of the output must already be a prefix of the input. -/
theorem word_prefix_transfer (pat rep : List Char)
    (hrep : rep ≠ []) (hhead : headNotWord rep = true) :
    ∀ (fuel : Nat) (s q : List Char), s.length ≤ fuel →
      (∀ c ∈ q, isWordChar c = true) →
      q.isPrefixOf (replaceAux pat rep fuel s) = true → q.isPrefixOf s = true := by
  intro fuel
  induction fuel with
  | zero =>
    intro s q hs hq hpre
    have hnil : s = [] := List.length_eq_zero.1 (Nat.le_zero.1 hs)
    subst hnil
    simpa [replaceAux] using hpre
  | succ n ih =>
    intro s q hs hq hpre
    cases s with
    | nil => simpa [replaceAux] using hpre
    | cons c rest =>
      by_cases hb : ((!pat.isEmpty) && pat.isPrefixOf (c :: rest)) = true
      · rw [show replaceAux pat rep (n + 1) (c :: rest) =
            rep ++ replaceAux pat rep n ((c :: rest).drop pat.length) from by
          simp only [replaceAux, if_pos hb]] at hpre
        cases q with
        | nil => simp [List.isPrefixOf]
        | cons w q' =>
          exfalso
          cases rep with
          | nil => exact hrep rfl
          | cons r rep' =>
            have hw : isWordChar w = true := hq w (by simp)
            have hr : isWordChar r = false := by
              simpa [headNotWord] using hhead
            rw [List.cons_append] at hpre
            simp only [List.isPrefixOf, Bool.and_eq_true, beq_iff_eq] at hpre
            rw [hpre.1] at hw
            rw [hr] at hw
            exact Bool.noConfusion hw
      · rw [show replaceAux pat rep (n + 1) (c :: rest) =
            c :: replaceAux pat rep n rest from by
          simp only [replaceAux, if_neg hb]] at hpre
        cases q with
        | nil => simp [List.isPrefixOf]
        | cons w q' =>
          simp only [List.isPrefixOf, Bool.and_eq_true, beq_iff_eq] at hpre ⊢
          have hrest : rest.length ≤ n := by
            simp only [List.length_cons] at hs
            omega
          exact ⟨hpre.1,
            ih rest q' hrest (fun x hx => hq x (by simp [hx])) hpre.2⟩

/-- Core lemma for the corrected mention-replacement claim: after
replacing every occurrence of the token `'@' :: run` by `rep`, the token
no longer occurs, provided `rep` does not start with a word character
and no nonempty suffix of `rep` is prefix-comparable with the token. -/
theorem replaceAux_no_occurrence (run rep : List Char)
    (hrun : ∀ c ∈ run, isWordChar c = true)
    (hrep : rep ≠ []) (hhead : headNotWord rep = true)
    (hsafe : suffixSafe ('@' :: run) rep = true) :
    ∀ (fuel : Nat) (s : List Char), s.length ≤ fuel →
      containsSub (replaceAux ('@' :: run) rep fuel s) ('@' :: run) = false := by
  intro fuel
  induction fuel with
  | zero =>
    intro s hs
    have hnil : s = [] := List.length_eq_zero.1 (Nat.le_zero.1 hs)
    subst hnil
    simp [replaceAux, containsSub, List.isPrefixOf]
  | succ n ih =>
    intro s hs
    cases s with
    | nil => simp [replaceAux, containsSub, List.isPrefixOf]
    | cons c rest =>
      by_cases hb : ((!List.isEmpty ('@' :: run)) &&
          ('@' :: run).isPrefixOf (c :: rest)) = true
      · rw [show replaceAux ('@' :: run) rep (n + 1) (c :: rest) =
            rep ++ replaceAux ('@' :: run) rep n
              ((c :: rest).drop ('@' :: run).length) from by
          simp only [replaceAux, if_pos hb]]
        have hs' : rest.length + 1 ≤ n + 1 := by simpa using hs
        have hlen : ((c :: rest).drop ('@' :: run).length).length ≤ n := by
          simp only [List.length_drop, List.length_cons]
          omega
        exact containsSub_append_safe _ _ (ih _ hlen) rep (suffixSafe_spec hsafe)
      · rw [show replaceAux ('@' :: run) rep (n + 1) (c :: rest) =
            c :: replaceAux ('@' :: run) rep n rest from by
          simp only [replaceAux, if_neg hb]]
        have hrest : rest.length ≤ n := by
          simp only [List.length_cons] at hs
          omega
        have htail := ih rest hrest
        have step : containsSub (c :: replaceAux ('@' :: run) rep n rest)
            ('@' :: run) =
            (('@' :: run).isPrefixOf (c :: replaceAux ('@' :: run) rep n rest) ||
              containsSub (replaceAux ('@' :: run) rep n rest) ('@' :: run)) := by
          simp [containsSub]
        rw [step, htail, Bool.or_false]
        cases hp : ('@' :: run).isPrefixOf
            (c :: replaceAux ('@' :: run) rep n rest) with
        | false => rfl
        | true =>
          exfalso
          simp only [List.isPrefixOf, Bool.and_eq_true, beq_iff_eq] at hp
          have hq := word_prefix_transfer ('@' :: run) rep hrep hhead n rest run
            hrest hrun hp.2
          apply hb
          simp only [List.isPrefixOf, Bool.and_eq_true, beq_iff_eq,
            List.isEmpty_cons, Bool.not_false, true_and]
          exact ⟨hp.1, hq⟩

/-- Every token produced by the mention scanner is an `@` followed by a
nonempty run of word characters. -/
theorem findMentionsAux_shape :
    ∀ (fuel : Nat) (s tok : List Char), tok ∈ findMentionsAux fuel s →
      ∃ run, tok = '@' :: run ∧ run ≠ [] ∧ ∀ c ∈ run, isWordChar c = true := by
  intro fuel
  induction fuel with
  | zero =>
    intro s tok h
    cases s with
    | nil => simp [findMentionsAux] at h
    | cons c rest => simp [findMentionsAux] at h
  | succ n ih =>
    intro s tok h
    cases s with
    | nil => simp [findMentionsAux] at h
    | cons c rest =>
      simp only [findMentionsAux] at h
      by_cases hc : (c == '@') = true
      · rw [if_pos hc] at h
        by_cases hrun : (rest.takeWhile isWordChar).isEmpty = true
        · rw [if_pos hrun] at h
          exact ih rest tok h
        · rw [if_neg hrun] at h
          rcases List.mem_cons.1 h with heq | hmem
          · refine ⟨rest.takeWhile isWordChar, heq, ?_, ?_⟩
            · intro hnil
              rw [hnil] at hrun
              exact hrun rfl
            · intro x hx
              exact List.mem_takeWhile_imp hx
          · exact ih _ tok hmem
      · rw [if_neg hc] at h
        exact ih rest tok h

/-- Membership after a dict insertion. -/
theorem addRep_mem {acc : List (List Char × List Char)}
    {k v : List Char} {pr : List Char × List Char}
    (h : pr ∈ addRep acc k v) : pr ∈ acc ∨ pr = (k, v) := by
  unfold addRep at h
  by_cases hc : acc.any (fun p => p.1 = k) = true
  · rw [if_pos hc] at h
    exact Or.inl h
  · rw [if_neg hc] at h
    rcases List.mem_append.1 h with hl | hr
    · exact Or.inl hl
    · exact Or.inr (by simpa using hr)

/-- The key of every recorded replacement is one of the scanned tokens. -/
theorem foldl_repStep_mem (m : String → Option String) :
    ∀ (toks : List (List Char)) (acc : List (List Char × List Char))
      (pr : List Char × List Char),
      pr ∈ toks.foldl (repStep m) acc → pr ∈ acc ∨ pr.1 ∈ toks := by
  intro toks
  induction toks with
  | nil => intro acc pr h; exact Or.inl (by simpa using h)
  | cons t ts ih =>
    intro acc pr h
    rw [List.foldl_cons] at h
    rcases ih (repStep m acc t) pr h with hacc | hkey
    · unfold repStep at hacc
      cases hm : m (String.mk (t.drop 1)) with
      | none =>
        rw [hm] at hacc
        exact Or.inl hacc
      | some v =>
        rw [hm] at hacc
        rcases addRep_mem hacc with hl | hr
        · exact Or.inl hl
        · right
          rw [hr]
          simp
    · right
      simp [hkey]

/-- When no scanned token resolves, the replacements dict stays as it
was. -/
theorem foldl_repStep_nil (m : String → Option String) :
    ∀ (toks : List (List Char)),
      (∀ tok ∈ toks, m (String.mk (tok.drop 1)) = none) →
      ∀ acc, toks.foldl (repStep m) acc = acc := by
  intro toks
  induction toks with
  | nil => intro _ acc; rfl
  | cons t ts ih =>
    intro h acc
    rw [List.foldl_cons]
    have ht : m (String.mk (t.drop 1)) = none := h t (by simp)
    have hstep : repStep m acc t = acc := by
      unfold repStep
      rw [ht]
    rw [hstep]
    exact ih (fun tok htok => h tok (by simp [htok])) acc

/-- A text in which no scanned token resolves passes through the mention
resolver unchanged. -/
theorem replaceMentions_no_resolved (m : String → Option String) (s : String)
    (h : ∀ tok ∈ findMentions s.data, m (String.mk (tok.drop 1)) = none) :
    replaceMentions m s = s := by
  obtain ⟨d⟩ := s
  show replaceMentions m (String.mk d) = String.mk d
  unfold replaceMentions buildReps
  rw [foldl_repStep_nil m _ h]
  rfl

/-! ## Helper lemmas: the dispatch loop -/

/-- The outputs of the dispatch loop never include an error report: only
the top-level handler produces error severity. -/
theorem handleTransactions_no_errorReport (env : Env) (ot : String) :
    ∀ ts : List Transaction,
      (handleTransactions env ot ts).1.filter isErrorReport = [] := by
  intro ts
  induction ts with
  | nil => rfl
  | cons t rest ih =>
    show (handleTransactions env ot (t :: rest)).1.filter isErrorReport = []
    unfold handleTransactions
    cases handleTransaction env ot t with
    | error e => rfl
    | ok r =>
      cases r with
      | skip note =>
        by_cases hd : debugConfigured env = true
        · simp [hd, List.filter_append, isErrorReport, ih]
        · simp only [Bool.not_eq_true] at hd
          simp [hd, ih]
      | msg text channel =>
        simp [List.filter_cons, isErrorReport, ih]

/-- Equation: the dispatch loop on an empty batch. -/
theorem handleTransactions_nil (env : Env) (ot : String) :
    handleTransactions env ot [] = ([], none) := rfl

/-- Equation: one step of the dispatch loop. -/
theorem handleTransactions_cons (env : Env) (ot : String) (t : Transaction)
    (l : List Transaction) :
    handleTransactions env ot (t :: l) =
      match handleTransaction env ot t with
      | .error e => ([], some e)
      | .ok (.skip note) =>
        ((if debugConfigured env then [Output.debugNote note] else []) ++
          (handleTransactions env ot l).1, (handleTransactions env ot l).2)
      | .ok (.msg text channel) =>
        (Output.chat text channel :: (handleTransactions env ot l).1,
          (handleTransactions env ot l).2) := rfl

/-- Dispatch on each recognized object type. -/
theorem handleTransaction_TASK (env : Env) (t : Transaction) :
    handleTransaction env "TASK" t = handleTask env t := rfl

theorem handleTransaction_DREV (env : Env) (t : Transaction) :
    handleTransaction env "DREV" t = handleDiff env t := by
  unfold handleTransaction
  rw [if_neg (by decide), if_pos rfl]

theorem handleTransaction_CMIT (env : Env) (t : Transaction) :
    handleTransaction env "CMIT" t = handleCommit env t := by
  unfold handleTransaction
  rw [if_neg (by decide), if_neg (by decide), if_pos rfl]

theorem handleTransaction_PROJ (env : Env) (t : Transaction) :
    handleTransaction env "PROJ" t = handleProj env t := by
  unfold handleTransaction
  rw [if_neg (by decide), if_neg (by decide), if_neg (by decide), if_pos rfl]

theorem handleTransaction_REPO (env : Env) (t : Transaction) :
    handleTransaction env "REPO" t = handleRepo env t := by
  unfold handleTransaction
  rw [if_neg (by decide), if_neg (by decide), if_neg (by decide),
    if_neg (by decide), if_pos rfl]

/-- Dispatch on an unrecognized object type yields the diagnostic skip. -/
theorem handleTransaction_unknown (env : Env) (ot : String) (t : Transaction)
    (hot : ot ∉ ["TASK", "DREV", "CMIT", "PROJ", "REPO"]) :
    handleTransaction env ot t = .ok (.skip (skipNote t)) := by
  unfold handleTransaction
  rw [if_neg (by intro h; exact hot (by simp [h])),
    if_neg (by intro h; exact hot (by simp [h])),
    if_neg (by intro h; exact hot (by simp [h])),
    if_neg (by intro h; exact hot (by simp [h])),
    if_neg (by intro h; exact hot (by simp [h]))]

/-- Splitting the dispatch loop at a list append, when the first part
raises nothing: its outputs come first and the loop continues behind
them. -/
theorem handleTransactions_ok_append (env : Env) (ot : String) :
    ∀ (pre post : List Transaction) (outs : List Output),
      handleTransactions env ot pre = (outs, none) →
      handleTransactions env ot (pre ++ post) =
        (outs ++ (handleTransactions env ot post).1,
          (handleTransactions env ot post).2) := by
  intro pre
  induction pre with
  | nil =>
    intro post outs hpre
    rw [handleTransactions_nil] at hpre
    cases hpre
    simp
  | cons t rest ih =>
    intro post outs hpre
    rw [handleTransactions_cons] at hpre
    rw [List.cons_append, handleTransactions_cons]
    cases hh : handleTransaction env ot t with
    | error e =>
      rw [hh] at hpre
      exact absurd (congrArg Prod.snd hpre) (by simp)
    | ok r =>
      rw [hh] at hpre
      cases r with
      | skip note =>
        simp only at hpre
        cases hrest : handleTransactions env ot rest with
        | mk outs1 err1 =>
          rw [hrest] at hpre
          cases err1 with
          | some e => exact absurd (congrArg Prod.snd hpre) (by simp)
          | none =>
            have houts : (if debugConfigured env then [Output.debugNote note]
                else []) ++ outs1 = outs := congrArg Prod.fst hpre
            rw [ih post outs1 hrest]
            simp only
            rw [← houts, List.append_assoc]
      | msg text channel =>
        simp only at hpre
        cases hrest : handleTransactions env ot rest with
        | mk outs1 err1 =>
          rw [hrest] at hpre
          cases err1 with
          | some e => exact absurd (congrArg Prod.snd hpre) (by simp)
          | none =>
            have houts : Output.chat text channel :: outs1 = outs :=
              congrArg Prod.fst hpre
            rw [ih post outs1 hrest]
            simp only
            rw [← houts]
            simp

/-- Any transaction whose author the directory does not know makes its
handler raise, whichever of the five object types is dispatched (the
task and diff handlers may instead raise on their owner lookup first,
which is still an exception). -/
theorem handleTransaction_author_fail (env : Env) (ot : String)
    (t : Transaction)
    (hot : ot ∈ ["TASK", "DREV", "CMIT", "PROJ", "REPO"])
    (ha : env.users t.author = none) :
    ∃ e, handleTransaction env ot t = .error e := by
  fin_cases hot
  · -- TASK
    rw [handleTransaction_TASK]
    unfold handleTask
    cases taskOwnerInfo env t with
    | error e => exact ⟨e, rfl⟩
    | ok p =>
      cases p with
      | mk owner_name owner_mention =>
        rw [ha]
        exact ⟨_, rfl⟩
  · -- DREV
    rw [handleTransaction_DREV]
    unfold handleDiff
    cases hgo : env.getOwner t.diff with
    | none =>
      simp only [hgo]
      exact ⟨_, rfl⟩
    | some op =>
      cases hu : env.users op with
      | none =>
        simp only [hgo, hu]
        exact ⟨_, rfl⟩
      | some uo =>
        simp only [hgo, hu, ha]
        exact ⟨_, rfl⟩
  · -- CMIT
    rw [handleTransaction_CMIT]
    unfold handleCommit
    rw [ha]
    exact ⟨_, rfl⟩
  · -- PROJ
    rw [handleTransaction_PROJ]
    unfold handleProj
    rw [ha]
    exact ⟨_, rfl⟩
  · -- REPO
    rw [handleTransaction_REPO]
    unfold handleRepo
    rw [ha]
    exact ⟨_, rfl⟩

/-- Associativity of string concatenation (via the underlying lists). -/
theorem str_append_assoc (a b c : String) : (a ++ b) ++ c = a ++ (b ++ c) := by
  obtain ⟨la⟩ := a
  obtain ⟨lb⟩ := b
  obtain ⟨lc⟩ := c
  show String.mk ((la ++ lb) ++ lc) = String.mk (la ++ (lb ++ lc))
  rw [List.append_assoc]

/-! ## Claim theorems -/

/-- Claim C1: `handle payload` always completes without raising — the
embedding returns a plain list of outputs (not an `Except`) for every
environment and payload.  At most one output is an error-severity report;
when the pipeline raises, `handle` appends exactly one error report after
the already-sent messages, and when it does not, the pipeline outputs
are forwarded untouched. -/
theorem C1_handle_catches_all (env : Env) (req : Request) :
    ((handle env req).filter isErrorReport).length ≤ 1 ∧
    (∀ outs, runPipeline env req = (outs, none) → handle env req = outs) ∧
    (∀ outs e, runPipeline env req = (outs, some e) →
      handle env req = outs ++ [Output.errorReport (errorText e req)]) := by
  refine ⟨?_, ?_, ?_⟩
  · unfold handle
    cases hrp : runPipeline env req with
    | mk outs err =>
      have houts : outs.filter isErrorReport = [] := by
        have h0 := handleTransactions_no_errorReport env req.objectType
          (env.getTransactions req.objectType req.objectPhid req.transactions)
        unfold runPipeline at hrp
        rw [hrp] at h0
        exact h0
      cases err with
      | none => simp [houts]
      | some e => simp [List.filter_append, houts, isErrorReport]
  · intro outs h
    unfold handle
    simp only [h]
  · intro outs e h
    unfold handle
    simp only [h]

/-- Witness for C1 at a concrete failing batch: the resolvable first
transaction is sent, then the exception becomes one error report. -/
theorem C1_handle_catches_all_witness :
    handle envBatch reqBatch =
      [Output.chat "User alice created task L-T1" none] ++
        [Output.errorReport (errorText "Unknown Phabricator user: P0" reqBatch)] :=
  (C1_handle_catches_all envBatch reqBatch).2.2
    [Output.chat "User alice created task L-T1" none]
    "Unknown Phabricator user: P0" (by decide)

/-- Claim C2 counterexample: with `bob` resolving to `<@U2>`, the text
`bob and @bob` resolves to `bob and <@U2>` — the full token `@bob` is
replaced, but the bare substring `bob` (without the `@`) still occurs in
the output, contrary to the claim that the bare name no longer appears
anywhere. -/
theorem C2_bare_name_cex :
    mC2 "bob" = some "<@U2>" ∧
    "@bob".data ∈ findMentions "bob and @bob".data ∧
    replaceMentions mC2 "bob and @bob" = "bob and <@U2>" ∧
    containsSub (replaceMentions mC2 "bob and @bob").data "bob".data = true := by
  decide

/-- Claim C2 (amended): the resolver replaces every occurrence of the
full matched token `@name` (with the leading `@`), not of the bare name;
bare-name occurrences are untouched.  Whenever a single identity
resolves, with a nonempty mention that starts with a non-word character
and none of whose nonempty suffixes is prefix-comparable with the token
(true of chat mentions such as `<@U2>` for ordinary usernames), the full
token no longer occurs anywhere in the output text. -/
theorem C2_token_replaced (m : String → Option String) (text : String)
    (pat rep : List Char)
    (h1 : buildReps m (findMentions text.data) = [(pat, rep)])
    (h2 : rep ≠ []) (h3 : headNotWord rep = true)
    (h4 : suffixSafe pat rep = true) :
    containsSub (replaceMentions m text).data pat = false := by
  have hmem : (pat, rep) ∈ buildReps m (findMentions text.data) := by
    rw [h1]
    exact List.mem_singleton.2 rfl
  have hkey : pat ∈ findMentions text.data := by
    have h5 := foldl_repStep_mem m (findMentions text.data) [] (pat, rep)
      (by unfold buildReps at hmem; exact hmem)
    rcases h5 with h5 | h5
    · simp at h5
    · exact h5
  obtain ⟨run, hpat, _, hword⟩ := findMentionsAux_shape _ _ _ hkey
  subst hpat
  have hrm : (replaceMentions m text).data =
      replaceAux ('@' :: run) rep text.data.length text.data := by
    unfold replaceMentions
    rw [h1]
    simp [strReplace]
  rw [hrm]
  exact replaceAux_no_occurrence run rep hword h2 h3 h4 _ _ (Nat.le_refl _)

/-- Witness for the amended C2 at a concrete comment. -/
theorem C2_token_replaced_witness :
    containsSub (replaceMentions mC2 "hey @bob check this").data "@bob".data = false :=
  C2_token_replaced mC2 "hey @bob check this" "@bob".data "<@U2>".data
    (by decide) (by decide) (by decide) (by decide)

/-- Claim C3 counterexample: a batch whose second transaction has an
unknown author still sends the chat message of the first transaction:
one chat message and one error report go out, not zero chat messages. -/
theorem C3_zero_messages_cex :
    envBatch.users tBad.author = none ∧
    ((handle envBatch reqBatch).filter isChat).length = 1 ∧
    ((handle envBatch reqBatch).filter isErrorReport).length = 1 := by
  decide

/-- Claim C3 (amended): when a transaction with an unresolvable author is
reached, `handle` emits exactly one error-severity message (carrying the
serialized request and a stack trace) and no per-transaction message from
that transaction onward; messages of transactions processed earlier in
the batch have already been sent, so the chat-message count is zero
exactly when the failure hits before the first renderable transaction. -/
theorem C3_single_error (env : Env) (req : Request)
    (pre rest : List Transaction) (t : Transaction) (outs : List Output)
    (hts : env.getTransactions req.objectType req.objectPhid req.transactions =
      pre ++ t :: rest)
    (hot : req.objectType ∈ ["TASK", "DREV", "CMIT", "PROJ", "REPO"])
    (ha : env.users t.author = none)
    (hpre : handleTransactions env req.objectType pre = (outs, none)) :
    ∃ e, handle env req = outs ++ [Output.errorReport (errorText e req)] ∧
      outs.filter isErrorReport = [] := by
  obtain ⟨e, he⟩ := handleTransaction_author_fail env req.objectType t hot ha
  have hrun : runPipeline env req = (outs, some e) := by
    unfold runPipeline
    rw [hts]
    rw [handleTransactions_ok_append env req.objectType pre (t :: rest) outs hpre]
    rw [handleTransactions_cons]
    simp only [he]
    simp
  refine ⟨e, ?_, ?_⟩
  · unfold handle
    simp only [hrun]
  · have h0 := handleTransactions_no_errorReport env req.objectType pre
    rw [hpre] at h0
    exact h0

/-- Witness for the amended C3 at the concrete two-transaction batch. -/
theorem C3_single_error_witness :
    ∃ e, handle envBatch reqBatch =
      [Output.chat "User alice created task L-T1" none] ++
        [Output.errorReport (errorText e reqBatch)] ∧
      [Output.chat "User alice created task L-T1" none].filter isErrorReport = [] :=
  C3_single_error envBatch reqBatch [tGood] [] tBad
    [Output.chat "User alice created task L-T1" none]
    (by decide) (by decide) (by decide) (by decide)

/-- Claim C4: for diff accept / request-changes / commandeer with
resolvable owner and author (and a resolvable channel), the rendered
text always begins with the owner's mention: no comparison of author and
owner guards the prefix, so this includes the case author = owner. -/
theorem C4_owner_mention_first (env : Env) (t : Transaction)
    (op om ch : String) (uo ua : User)
    (ht : t.ttype = "diff-accept" ∨ t.ttype = "diff-request-changes" ∨
      t.ttype = "diff-commandeer")
    (hgo : env.getOwner t.diff = some op)
    (hu : env.users op = some uo)
    (ha : env.users t.author = some ua)
    (hm : env.getMention op = some om)
    (hch : getChannelForRepo env t.repo = .ok ch) :
    ∃ s, handleDiff env t = .ok (.msg (om ++ s) (some ch)) := by
  unfold handleDiff
  simp only [hgo, hu, ha, hch, hm]
  unfold diffMessage
  rcases ht with h | h | h
  · refine ⟨" User " ++ ua.phab_username ++ " accepted diff " ++
      env.getLink t.diff, ?_⟩
    rw [h]
    rw [if_neg (by decide), if_neg (by decide), if_neg (by decide),
      if_neg (by decide), if_neg (by decide), if_pos rfl]
    simp only [pyStr]
    simp [str_append_assoc]
  · refine ⟨" User " ++ ua.phab_username ++ " requested changes to diff " ++
      env.getLink t.diff, ?_⟩
    rw [h]
    rw [if_neg (by decide), if_neg (by decide), if_neg (by decide),
      if_neg (by decide), if_neg (by decide), if_neg (by decide), if_pos rfl]
    simp only [pyStr]
    simp [str_append_assoc]
  · refine ⟨" User " ++ ua.phab_username ++ " took command of diff " ++
      env.getLink t.diff, ?_⟩
    rw [h]
    rw [if_neg (by decide), if_neg (by decide), if_neg (by decide),
      if_neg (by decide), if_neg (by decide), if_neg (by decide),
      if_neg (by decide), if_pos rfl]
    simp only [pyStr]
    simp [str_append_assoc]

/-- Witness for C4 with author equal to owner (alice accepts her own
diff): the message still starts with her mention. -/
theorem C4_owner_mention_first_witness :
    ∃ s, handleDiff envDiff tAccept = .ok (.msg ("<@U1>" ++ s) (some "general")) :=
  C4_owner_mention_first envDiff tAccept "P1" "<@U1>" "general"
    { phab_username := "alice" } { phab_username := "alice" }
    (Or.inl rfl) (by decide) (by decide) (by decide) (by decide) rfl

/-- Claim C5: a task add-comment message is prefixed with the owner's
mention and a space exactly when an owner exists and the author differs
from the owner; otherwise the plain comment template is returned.
Resolved usernames are taken nonempty, matching the Python truthiness
test on the owner name. -/
theorem C5_comment_owner_guard (env : Env) (t : Transaction) (ua : User)
    (ht : t.ttype = "task-add-comment")
    (ha : env.users t.author = some ua) :
    (∀ op uo, env.getOwner t.task = some op → op ≠ "" →
      env.users op = some uo → uo.phab_username ≠ "" →
      ua.phab_username ≠ uo.phab_username →
      handleTask env t = .ok (.msg (pyStr (env.getMention op) ++ " " ++
        ("User " ++ ua.phab_username ++ " commented on task " ++
          env.getLink t.task ++ " with: " ++
          replaceMentions env.getMention t.comment)) none)) ∧
    (env.getOwner t.task = none →
      handleTask env t = .ok (.msg ("User " ++ ua.phab_username ++
        " commented on task " ++ env.getLink t.task ++ " with: " ++
        replaceMentions env.getMention t.comment) none)) ∧
    (∀ op uo, env.getOwner t.task = some op → op ≠ "" →
      env.users op = some uo → ua.phab_username = uo.phab_username →
      handleTask env t = .ok (.msg ("User " ++ ua.phab_username ++
        " commented on task " ++ env.getLink t.task ++ " with: " ++
        replaceMentions env.getMention t.comment) none)) := by
  refine ⟨?_, ?_, ?_⟩
  · intro op uo hgo hop hu hname hdiff
    unfold handleTask taskOwnerInfo
    simp only [hgo]
    rw [if_neg hop]
    simp only [hu, ha]
    unfold taskMessage
    rw [ht]
    rw [if_neg (by decide), if_pos rfl]
    simp only
    rw [if_pos ⟨hname, hdiff⟩]
  · intro hno
    unfold handleTask taskOwnerInfo
    simp only [hno, ha]
    unfold taskMessage
    rw [ht]
    rw [if_neg (by decide), if_pos rfl]
  · intro op uo hgo hop hu heq
    unfold handleTask taskOwnerInfo
    simp only [hgo]
    rw [if_neg hop]
    simp only [hu, ha]
    unfold taskMessage
    rw [ht]
    rw [if_neg (by decide), if_pos rfl]
    simp only
    rw [if_neg (fun hcon => hcon.2 heq)]

/-- Witness for C5 at the concrete comment of alice (author) on a task
owned by bob: the message is prefixed with the mention of P2 (bob). -/
theorem C5_comment_owner_guard_witness :
    handleTask envTwo tComment = .ok (.msg (pyStr (envTwo.getMention "P2") ++ " " ++
      ("User " ++ "alice" ++ " commented on task " ++
        envTwo.getLink tComment.task ++ " with: " ++
        replaceMentions envTwo.getMention tComment.comment)) none) :=
  (C5_comment_owner_guard envTwo tComment { phab_username := "alice" }
    rfl (by decide)).1 "P2" { phab_username := "bob" }
    (by decide) (by decide) (by decide) (by decide) (by decide)

/-- Claim C6: change-status and change-priority prefix the owner mention
whenever the author differs from the owner, with no owner-existence
guard: an absent owner still satisfies the comparison, so the prefix is
applied with the formatted `None` mention. -/
theorem C6_change_no_owner_guard (env : Env) (t : Transaction) (ua : User)
    (ht : t.ttype = "task-change-status" ∨ t.ttype = "task-change-priority")
    (ha : env.users t.author = some ua) :
    (env.getOwner t.task = none →
      handleTask env t = .ok (.msg ("None" ++ " " ++
        taskChangeText env t ua.phab_username) none)) ∧
    (∀ op uo, env.getOwner t.task = some op → op ≠ "" →
      env.users op = some uo → uo.phab_username ≠ ua.phab_username →
      handleTask env t = .ok (.msg (pyStr (env.getMention op) ++ " " ++
        taskChangeText env t ua.phab_username) none)) := by
  constructor
  · intro hno
    unfold handleTask taskOwnerInfo
    simp only [hno, ha]
    unfold taskMessage taskChangeText
    rcases ht with h | h
    · rw [h]
      rw [if_neg (by decide), if_neg (by decide), if_neg (by decide),
        if_neg (by decide), if_pos rfl, if_pos rfl]
      simp only
      rw [if_pos (by simp)]
      simp only [pyStr]
    · rw [h]
      rw [if_neg (by decide), if_neg (by decide), if_neg (by decide),
        if_neg (by decide), if_neg (by decide), if_pos rfl,
        if_neg (by decide)]
      simp only
      rw [if_pos (by simp)]
      simp only [pyStr]
  · intro op uo hgo hop hu hdiff
    unfold handleTask taskOwnerInfo
    simp only [hgo]
    rw [if_neg hop]
    simp only [hu, ha]
    unfold taskMessage taskChangeText
    rcases ht with h | h
    · rw [h]
      rw [if_neg (by decide), if_neg (by decide), if_neg (by decide),
        if_neg (by decide), if_pos rfl, if_pos rfl]
      simp only
      rw [if_pos (by simp [hdiff])]
    · rw [h]
      rw [if_neg (by decide), if_neg (by decide), if_neg (by decide),
        if_neg (by decide), if_neg (by decide), if_pos rfl,
        if_neg (by decide)]
      simp only
      rw [if_pos (by simp [hdiff])]

/-- Witness for C6 at a status change on an ownerless task: the message
is prefixed with the rendered `None` mention. -/
theorem C6_change_no_owner_guard_witness :
    handleTask envNoOwner tStatus = .ok (.msg ("None" ++ " " ++
      taskChangeText envNoOwner tStatus "alice") none) :=
  (C6_change_no_owner_guard envNoOwner tStatus { phab_username := "alice" }
    (Or.inl rfl) (by decide)).1 (by decide)

/-- Claim C7: channel resolution returns the explicitly mapped channel
when one exists and the `__default__` channel otherwise (the mandatory
default is assumed configured, as the data-model invariant requires). -/
theorem C7_channel_routing (env : Env) (repo d : String)
    (hd : env.channels.lookup "__default__" = some d) :
    (∀ c, env.channels.lookup repo = some c →
      getChannelForRepo env repo = .ok c) ∧
    (env.channels.lookup repo = none → getChannelForRepo env repo = .ok d) := by
  constructor
  · intro c hc
    unfold getChannelForRepo
    simp only [hd, hc, Option.getD_some]
  · intro hc
    unfold getChannelForRepo
    simp only [hd, hc, Option.getD_none]

/-- Witness for C7: an explicit mapping overrides the default and an
unmapped repository falls back to it. -/
theorem C7_channel_routing_witness :
    getChannelForRepo envChan "repo1" = .ok "chan1" ∧
    getChannelForRepo envChan "foo" = .ok "dflt" :=
  ⟨(C7_channel_routing envChan "repo1" "dflt" (by decide)).1 "chan1" (by decide),
    (C7_channel_routing envChan "foo" "dflt" (by decide)).2 (by decide)⟩

/-- On an unrecognized object type the dispatch loop raises nothing and
produces one debug note per transaction when the debug sink is
configured, none otherwise. -/
theorem handleTransactions_unknown (env : Env) (ot : String)
    (hot : ot ∉ ["TASK", "DREV", "CMIT", "PROJ", "REPO"]) :
    ∀ ts : List Transaction,
      handleTransactions env ot ts =
        ((if debugConfigured env then
            ts.map (fun t => Output.debugNote (skipNote t))
          else []), none) := by
  intro ts
  induction ts with
  | nil => simp [handleTransactions_nil]
  | cons t rest ih =>
    rw [handleTransactions_cons, handleTransaction_unknown env ot t hot]
    simp only
    rw [ih]
    by_cases hd : debugConfigured env = true
    · simp [hd]
    · simp only [Bool.not_eq_true] at hd
      simp [hd]

/-- Claim C8: a payload whose object type is outside the five recognized
types produces zero chat messages; with a debug sink configured the
result is exactly one debug note per transaction, otherwise nothing. -/
theorem C8_unknown_object_type (env : Env) (req : Request)
    (hot : req.objectType ∉ ["TASK", "DREV", "CMIT", "PROJ", "REPO"]) :
    handle env req =
      if debugConfigured env then
        (env.getTransactions req.objectType req.objectPhid req.transactions).map
          (fun t => Output.debugNote (skipNote t))
      else [] := by
  unfold handle runPipeline
  rw [handleTransactions_unknown env req.objectType hot
    (env.getTransactions req.objectType req.objectPhid req.transactions)]

/-- Witness for C8 at a `WIKI` payload against a configuration with a
debug sink. -/
theorem C8_unknown_object_type_witness :
    handle envChan reqWiki =
      if debugConfigured envChan then
        (envChan.getTransactions reqWiki.objectType reqWiki.objectPhid
          reqWiki.transactions).map (fun t => Output.debugNote (skipNote t))
      else [] :=
  C8_unknown_object_type envChan reqWiki (by decide)

/-- Claim C9 counterexample: the resolver is not idempotent in general.
With `bob` resolving to `<@U2>` and `U2` itself a registered username,
the first pass yields `<@U2>` and the second rewrites its inside. -/
theorem C9_idempotent_cex :
    replaceMentions m9 "@bob" = "<@U2>" ∧
    replaceMentions m9 (replaceMentions m9 "@bob") = "<<@U7>>" ∧
    replaceMentions m9 (replaceMentions m9 "@bob") ≠ replaceMentions m9 "@bob" := by
  decide

/-- Claim C9 (amended): the resolver is idempotent on a resolved text in
which no remaining `@` token resolves — in particular whenever the
inserted chat mentions contain no registered username after their `@`.
The second application then changes nothing. -/
theorem C9_idempotent_conditional (m : String → Option String) (text : String)
    (h : ∀ tok ∈ findMentions (replaceMentions m text).data,
      m (String.mk (tok.drop 1)) = none) :
    replaceMentions m (replaceMentions m text) = replaceMentions m text :=
  replaceMentions_no_resolved m (replaceMentions m text) h

/-- Witness for the amended C9: the resolved comment contains only the
unresolvable token `@U2`, so the second pass is a no-op. -/
theorem C9_idempotent_conditional_witness :
    replaceMentions mC2 (replaceMentions mC2 "hey @bob check this") =
      replaceMentions mC2 "hey @bob check this" :=
  C9_idempotent_conditional mC2 "hey @bob check this" (by decide)

/-- Claim C10: for every diff transaction, whatever its subtype, an
absent or unresolvable diff owner makes the handler raise before the
subtype dispatch, and the whole request lands in the error-report path;
the diff handler has no branch tolerating a missing owner. -/
theorem C10_diff_owner_required (env : Env) (t : Transaction)
    (hbad : (env.getOwner t.diff).bind env.users = none) :
    (∃ e, handleDiff env t = .error e) ∧
    (∀ req : Request, req.objectType = "DREV" →
      env.getTransactions req.objectType req.objectPhid req.transactions = [t] →
      ∃ e, handle env req = [Output.errorReport (errorText e req)]) := by
  have h1 : ∃ e, handleDiff env t = .error e := by
    unfold handleDiff
    cases hgo : env.getOwner t.diff with
    | none =>
      simp only [hgo]
      exact ⟨_, rfl⟩
    | some op =>
      rw [hgo] at hbad
      have hu : env.users op = none := hbad
      simp only [hgo, hu]
      exact ⟨_, rfl⟩
  refine ⟨h1, ?_⟩
  intro req hreq hts
  obtain ⟨e, he⟩ := h1
  refine ⟨e, ?_⟩
  unfold handle runPipeline
  rw [hts, handleTransactions_cons, hreq, handleTransaction_DREV, he]
  simp

/-- Witness for C10 at an ownerless diff-create transaction: the whole
request becomes a single error report. -/
theorem C10_diff_owner_required_witness :
    ∃ e, handle envOrphan reqOrphan = [Output.errorReport (errorText e reqOrphan)] :=
  (C10_diff_owner_required envOrphan tOrphanDiff (by decide)).2 reqOrphan
    (by decide) (by decide)

end SlackNotiphier
